import Mathlib

/-!
# RodRoyale — verification of the spec against the client source

Shallow embedding of the RodRoyale client (`client/src`) and, where the
backend code is absent from the sources, definitions modelled from the
spec.  Data model follows `client/src/types` (the TypeScript interfaces
`User`, `Location`, `Catch`, `Pin`, `UserStats`, `LeaderboardUser`,
`LeaderboardResponse`).
-/

namespace RodRoyale

/-- `Location` from the client types: `lat`/`lng` plus optional place names.
JS numbers are modelled as rationals. -/
structure Location where
  lat : ℚ
  lng : ℚ
  city : Option String := none
  state : Option String := none
  country : Option String := none
deriving DecidableEq

/-- `Catch` from the client types.  `created_at` is the ISO string the server
sends; the client parses it with `new Date(...).getTime()` wherever it sorts. -/
structure Catch where
  _id : String
  user_id : String
  species : String
  weight : ℚ
  photo_url : String
  location : Location
  shared_with_followers : Bool
  created_at : String
deriving DecidableEq

/-- `User` from the client types. -/
structure User where
  _id : String
  username : String
  email : String
  bio : Option String := none
  followers : List String := []
  following : List String := []
deriving DecidableEq

/-- Pin visibility: the string union `'private' | 'mutuals' | 'public'`. -/
inductive Visibility
  | privateVis
  | mutuals
  | publicVis
deriving DecidableEq

/-- The literal string carried by the `visibility` field. -/
def visibilityStr : Visibility → String
  | .privateVis => "private"
  | .mutuals => "mutuals"
  | .publicVis => "public"

/-- `Pin` from the client types: `catch_info` and `owner_info` are optional
enrichment; they are absent e.g. when the referenced catch was deleted. -/
structure Pin where
  id : String
  user_id : String
  catch_id : String
  location : Location
  visibility : Visibility
  catch_info : Option Catch := none
  owner_info : Option User := none
deriving DecidableEq

/-! ## Stable descending sort

`HomeScreen.sortedCatches` sorts with JavaScript
`[...catches].sort((a, b) => tb - ta)`.  `Array.prototype.sort` is a stable
sort (ECMAScript 2019), so the result is: descending in the key, with equal
keys kept in input order.  `insertDesc`/`sortDescBy` implement exactly that
denotation (the head of the input is inserted last, before any element whose
key is not strictly greater). -/

/-- Insert `a` into a descending-sorted list: `a` goes before the first
element whose key is not strictly greater than `key a`. -/
def insertDesc {α β : Type} [LinearOrder β] (key : α → β) (a : α) : List α → List α
  | [] => [a]
  | b :: l => if key a < key b then b :: insertDesc key a l else a :: b :: l

/-- Stable descending insertion sort by `key`. -/
def sortDescBy {α β : Type} [LinearOrder β] (key : α → β) : List α → List α
  | [] => []
  | a :: l => insertDesc key a (sortDescBy key l)

theorem insertDesc_perm {α β : Type} [LinearOrder β] (key : α → β) (a : α) :
    ∀ l : List α, List.Perm (insertDesc key a l) (a :: l)
  | [] => List.Perm.refl _
  | b :: l => by
    unfold insertDesc
    by_cases h : key a < key b
    · simpa [h] using ((insertDesc_perm key a l).cons b).trans (List.Perm.swap a b l)
    · simp [h]

theorem sortDescBy_perm {α β : Type} [LinearOrder β] (key : α → β) :
    ∀ l : List α, List.Perm (sortDescBy key l) l
  | [] => List.Perm.refl _
  | a :: l =>
    (insertDesc_perm key a (sortDescBy key l)).trans ((sortDescBy_perm key l).cons a)

theorem mem_insertDesc {α β : Type} [LinearOrder β] {key : α → β} {a x : α}
    {l : List α} : x ∈ insertDesc key a l ↔ x = a ∨ x ∈ l := by
  constructor
  · intro hx
    have := (insertDesc_perm key a l).mem_iff.mp hx
    simpa using this
  · intro hx
    exact (insertDesc_perm key a l).mem_iff.mpr (by simpa using hx)

theorem insertDesc_pairwise {α β : Type} [LinearOrder β] {key : α → β} (a : α) :
    ∀ {l : List α}, l.Pairwise (fun x y => key y ≤ key x) →
      (insertDesc key a l).Pairwise (fun x y => key y ≤ key x) := by
  intro l
  induction l with
  | nil => intro _; simp [insertDesc]
  | cons b l ih =>
    intro hp
    rw [List.pairwise_cons] at hp
    obtain ⟨hb, hl⟩ := hp
    unfold insertDesc
    by_cases h : key a < key b
    · rw [if_pos h, List.pairwise_cons]
      refine ⟨?_, ih hl⟩
      intro y hy
      rcases mem_insertDesc.mp hy with rfl | hy
      · exact le_of_lt h
      · exact hb y hy
    · rw [if_neg h, List.pairwise_cons]
      refine ⟨?_, List.pairwise_cons.mpr ⟨hb, hl⟩⟩
      intro y hy
      rcases List.mem_cons.mp hy with rfl | hy
      · exact le_of_not_lt h
      · exact le_trans (hb y hy) (le_of_not_lt h)

theorem sortDescBy_pairwise {α β : Type} [LinearOrder β] (key : α → β) :
    ∀ l : List α, (sortDescBy key l).Pairwise (fun x y => key y ≤ key x)
  | [] => by simp [sortDescBy]
  | a :: l => insertDesc_pairwise a (sortDescBy_pairwise key l)

theorem insertDesc_filter_key {α β : Type} [LinearOrder β] (key : α → β)
    (a : α) (k : β) :
    ∀ l : List α,
      (insertDesc key a l).filter (fun x => decide (key x = k)) =
        if key a = k then a :: l.filter (fun x => decide (key x = k))
        else l.filter (fun x => decide (key x = k))
  | [] => by
    by_cases h : key a = k <;> simp [insertDesc, List.filter, h]
  | b :: l => by
    unfold insertDesc
    by_cases h : key a < key b
    · rw [if_pos h]
      by_cases ha : key a = k
      · have hb : ¬ key b = k := by
          intro hb
          rw [ha] at h
          rw [hb] at h
          exact lt_irrefl k h
        simp [List.filter_cons, ha, hb, insertDesc_filter_key key a k l]
      · simp [List.filter_cons, insertDesc_filter_key key a k l, ha]
    · rw [if_neg h]
      by_cases ha : key a = k <;> simp [List.filter_cons, ha]

theorem sortDescBy_filter_key {α β : Type} [LinearOrder β] (key : α → β) (k : β) :
    ∀ l : List α,
      (sortDescBy key l).filter (fun x => decide (key x = k)) =
        l.filter (fun x => decide (key x = k))
  | [] => rfl
  | a :: l => by
    unfold sortDescBy
    rw [insertDesc_filter_key key a k (sortDescBy key l)]
    by_cases ha : key a = k <;>
      simp [List.filter_cons, ha, sortDescBy_filter_key key k l]

/-! ## C1 — HomeScreen feed ordering (`sortedCatches`) -/

/-- `HomeScreen.tsx` `sortedCatches`:
`[...catches].sort((a, b) => new Date(b.created_at).getTime() - new Date(a.created_at).getTime())`.
`getTime` abstracts `new Date(s).getTime()` (an external JS builtin). -/
def sortedCatches (getTime : String → Int) (catches : List Catch) : List Catch :=
  sortDescBy (fun c => getTime c.created_at) catches

/-- A throwaway location used by the concrete test inputs. -/
def loc0 : Location := { lat := 0, lng := 0 }

/-- Concrete catch, id `"a"`, same `created_at` as `exCatchB`. -/
def exCatchA : Catch :=
  { _id := "a", user_id := "u1", species := "Bass", weight := 2,
    photo_url := "", location := loc0, shared_with_followers := true,
    created_at := "2025-07-01T00:00:00Z" }

/-- Concrete catch, id `"b"`, same `created_at` as `exCatchA`. -/
def exCatchB : Catch :=
  { _id := "b", user_id := "u2", species := "Trout", weight := 3,
    photo_url := "", location := loc0, shared_with_followers := true,
    created_at := "2025-07-01T00:00:00Z" }

/-- A concrete stand-in for `new Date(s).getTime()`; any function works since
the two test catches carry the identical timestamp string. -/
def exGetTime (s : String) : Int := s.length

/-- C1, counterexample.  `sortedCatches` uses no secondary key: two catches
with equal `created_at` keep their input order, so the two permutations of the
same two catches produce different feeds — the displayed order is not
determined by any implementation-stable secondary key (e.g. by `_id`, which
would put `exCatchA` first in both runs). -/
theorem c1_feed_order_counterexample :
    sortedCatches exGetTime [exCatchB, exCatchA] = [exCatchB, exCatchA]
    ∧ sortedCatches exGetTime [exCatchA, exCatchB] = [exCatchA, exCatchB]
    ∧ exCatchA.created_at = exCatchB.created_at
    ∧ exCatchA ≠ exCatchB
    ∧ sortedCatches exGetTime [exCatchB, exCatchA]
        ≠ sortedCatches exGetTime [exCatchA, exCatchB] := by
  refine ⟨rfl, rfl, rfl, by decide, by decide⟩

/-- C1, amended.  The HomeScreen feed is sorted by creation timestamp
descending with a *stable* sort: the output is a permutation of the delivered
feed, weakly descending in the parsed timestamp, and catches with equal
timestamps keep their relative order from the input (no secondary key is
applied, so tie order is deterministic only relative to the order the feed
was delivered in). -/
theorem c1_feed_order_stable_sort (getTime : String → Int) (catches : List Catch) :
    List.Perm (sortedCatches getTime catches) catches
    ∧ (sortedCatches getTime catches).Pairwise
        (fun a b => getTime b.created_at ≤ getTime a.created_at)
    ∧ ∀ t : Int,
        (sortedCatches getTime catches).filter
            (fun c => decide (getTime c.created_at = t)) =
          catches.filter (fun c => decide (getTime c.created_at = t)) :=
  ⟨sortDescBy_perm _ catches, sortDescBy_pairwise _ catches,
    fun t => sortDescBy_filter_key _ t catches⟩

/-! ## C2 — owner-mismatch rejection (`updateMyCatch` / `deleteMyCatch`)

`api.ts`: both helpers first call `getMyCatches()` (the viewer's own catches)
and look the target id up with `myCatches.find(c => c._id === catchId)`; when
the id is absent they throw before any PUT/DELETE request is built.  The
embedding takes the fetched `myCatches` list as input and returns either the
error message thrown or the request that would be issued. -/

/-- Body of `updateCatch`'s PUT — `Partial<CreateCatchRequest>`. -/
structure CatchUpdate where
  species : Option String := none
  weight : Option ℚ := none
  photo_url : Option String := none
  location : Option Location := none
  shared_with_followers : Option Bool := none
deriving DecidableEq

/-- The `PUT /catches/{id}` request `updateCatch` would issue. -/
structure PutCatchRequest where
  catchId : String
  body : CatchUpdate
deriving DecidableEq

/-- `api.ts` `updateMyCatch`: ownership is verified against `myCatches`;
on failure the wrapped error is thrown and no PUT request is issued. -/
def updateMyCatch (myCatches : List Catch) (catchId : String)
    (catchData : CatchUpdate) : Except String PutCatchRequest :=
  match myCatches.find? (fun c => c._id == catchId) with
  | none =>
    Except.error
      "Failed to update catch: Catch not found or you do not have permission to edit it"
  | some _ => Except.ok { catchId := catchId, body := catchData }

/-- `api.ts` `deleteMyCatch`: ownership is verified against `myCatches`;
on failure the wrapped error is thrown and no DELETE request is issued.
On success the id of the `DELETE /catches/{id}` request is returned. -/
def deleteMyCatch (myCatches : List Catch) (catchId : String) :
    Except String String :=
  match myCatches.find? (fun c => c._id == catchId) with
  | none =>
    Except.error
      "Failed to delete catch: Catch not found or you do not have permission to delete it"
  | some _ => Except.ok catchId

/-- `api.ts` `canEditCatch`: the Access-Evaluator predicate the mutation path
reuses — the viewer may edit/delete exactly the ids among their own catches. -/
def canEditCatch (myCatches : List Catch) (catchId : String) : Bool :=
  myCatches.any (fun c => c._id == catchId)

theorem find?_eq_none_of_not_owned {myCatches : List Catch} {target : Catch}
    {viewer : String}
    (hOwn : ∀ c ∈ myCatches, c.user_id = viewer)
    (hTarget : target.user_id ≠ viewer)
    (hUniq : ∀ c ∈ myCatches, c._id = target._id → c = target) :
    myCatches.find? (fun c => c._id == target._id) = none := by
  rw [List.find?_eq_none]
  intro c hc hbeq
  have hid : c._id = target._id := by simpa using hbeq
  have hct : c = target := hUniq c hc hid
  exact hTarget (hct ▸ hOwn c hc)

/-- C2, confirmed.  For a viewer whose own catches are `myCatches` and a
target catch owned by someone else (ids being unique), `updateMyCatch` and
`deleteMyCatch` both return the permission error — no PUT/DELETE request is
produced — and `canEditCatch` denies the edit. -/
theorem c2_owner_mismatch_rejected (viewer : String) (myCatches : List Catch)
    (target : Catch) (d : CatchUpdate)
    (hOwn : ∀ c ∈ myCatches, c.user_id = viewer)
    (hTarget : target.user_id ≠ viewer)
    (hUniq : ∀ c ∈ myCatches, c._id = target._id → c = target) :
    updateMyCatch myCatches target._id d =
      Except.error
        "Failed to update catch: Catch not found or you do not have permission to edit it"
    ∧ deleteMyCatch myCatches target._id =
      Except.error
        "Failed to delete catch: Catch not found or you do not have permission to delete it"
    ∧ canEditCatch myCatches target._id = false := by
  have hfind := find?_eq_none_of_not_owned hOwn hTarget hUniq
  refine ⟨?_, ?_, ?_⟩
  · simp [updateMyCatch, hfind]
  · simp [deleteMyCatch, hfind]
  · simp only [canEditCatch]
    rw [List.any_eq_false]
    exact List.find?_eq_none.mp hfind

/-- C2 witness: concrete viewer `"v"` owning one catch tries to mutate a
catch owned by `"w"`. -/
theorem c2_owner_mismatch_rejected_witness :
    updateMyCatch [exCatchA] exCatchB._id {} =
      Except.error
        "Failed to update catch: Catch not found or you do not have permission to edit it"
    ∧ deleteMyCatch [exCatchA] exCatchB._id =
      Except.error
        "Failed to delete catch: Catch not found or you do not have permission to delete it"
    ∧ canEditCatch [exCatchA] exCatchB._id = false :=
  c2_owner_mismatch_rejected "u1" [exCatchA] exCatchB {}
    (by decide) (by decide) (by decide)

/-! ## C3 — retries and atomicity in the catch-mutation path

`api.ts` `createCatch`: on iOS it walks up to four base URLs
(`urlsToTry`) with `maxRetries = 2` per URL, sleeping and retrying after an
`ECONNABORTED` timeout; on other platforms a single URL with a single
attempt.  The network is abstracted by an oracle `oc url attempt` giving each
request's outcome.  `api.ts` `deleteCatch`: fetches the catch, tries to
delete its Cloudinary image (failures swallowed), then issues the database
DELETE; there is no rollback of the image deletion if the DELETE fails. -/

/-- Outcome of one HTTP attempt, as `createCatch`'s handler distinguishes
them: success, `ECONNABORTED` timeout, a response with an error status
(`error.response`), or a network error with no response (`error.request`). -/
inductive Outcome
  | success
  | timeout
  | serverError
  | networkError
deriving DecidableEq

/-- Inner attempt loop of `createCatch` for one base URL, over the attempt
numbers still to run (`[1, …, maxRetries]`).  Returns the number of requests
issued and `none` on success / the last error otherwise.  A timeout retries
exactly when attempts remain (`attempt < maxRetries`); any other error breaks
the loop. -/
def runAttempts (oc : Nat → Outcome) : List Nat → Nat × Option Outcome
  | [] => (0, none)
  | a :: rest =>
    match oc a with
    | Outcome.success => (1, none)
    | Outcome.timeout =>
      match rest with
      | [] => (1, some Outcome.timeout)
      | b :: bs =>
        let p := runAttempts oc (b :: bs)
        (p.1 + 1, p.2)
    | o => (1, some o)

/-- Outer URL loop of `createCatch`: after a URL fails, the next URL is tried
unless the last error carried a server response (`lastError.response`). -/
def runUrls (oc : Nat → Nat → Outcome) (attempts : List Nat) :
    List Nat → Option Outcome → Nat × Option Outcome
  | [], last => (0, last)
  | u :: us, _ =>
    let p := runAttempts (oc u) attempts
    match p.2 with
    | none => (p.1, none)
    | some Outcome.serverError => (p.1, some Outcome.serverError)
    | some e =>
      let q := runUrls oc attempts us (some e)
      (p.1 + q.1, q.2)

/-- `createCatch`'s request schedule: number of POST `/catches` requests
issued for one logical creation, and the final error (if any).  On iOS:
4 candidate URLs × up to 2 attempts; otherwise one URL, one attempt. -/
def createCatchRun (isIOS : Bool) (oc : Nat → Nat → Outcome) :
    Nat × Option Outcome :=
  let urls := if isIOS then [0, 1, 2, 3] else [0]
  let attempts := if isIOS then [1, 2] else [1]
  runUrls oc attempts urls none

/-- Character-list prefix test (for substring search over string data). -/
def charsStartWith : List Char → List Char → Bool
  | _, [] => true
  | [], _ :: _ => false
  | c :: cs, p :: ps => c == p && charsStartWith cs ps

/-- The suffix after the first occurrence of `pat` (JS
`s.substring(s.indexOf(pat) + pat.length)`); `none` when `indexOf === -1`. -/
def afterFirstChars (pat : List Char) : List Char → Option (List Char)
  | [] => none
  | c :: cs =>
    if charsStartWith (c :: cs) pat then some ((c :: cs).drop pat.length)
    else afterFirstChars pat cs

/-- JS `s.includes(pat)` for the nonempty literal patterns the source uses. -/
def containsSub (s pat : String) : Bool :=
  (afterFirstChars pat.toList s.toList).isSome

/-- Drop a leading `v<digits>/` version segment (regex `^v\d+\/`). -/
def stripVersionChars (s : List Char) : List Char :=
  match s with
  | 'v' :: rest =>
    let digits := rest.takeWhile Char.isDigit
    match digits, rest.drop digits.length with
    | _ :: _, '/' :: t => t
    | _, _ => s
  | _ => s

/-- Drop a final `.<ext>` (regex `\.[^.]+$`): only when a dot exists and the
part after the last dot is nonempty. -/
def stripExtChars (s : List Char) : List Char :=
  let rev := s.reverse
  let ext := rev.takeWhile (· ≠ '.')
  if ext.length < rev.length ∧ ext ≠ [] then
    (rev.drop (ext.length + 1)).reverse
  else s

/-- `api.ts` `extractPublicIdFromUrl`: for a Cloudinary URL, the path after
the first `/upload/`, with the version segment and the file extension
stripped; `none` for non-Cloudinary URLs or URLs without `/upload/`. -/
def extractPublicIdFromUrl (imageUrl : String) : Option String :=
  if ¬ containsSub imageUrl "cloudinary.com" then none
  else
    match afterFirstChars "/upload/".toList imageUrl.toList with
    | none => none
    | some path => some (String.mk (stripExtChars (stripVersionChars path)))

/-- Environment for one `deleteCatch` run: what `getCatch`, the Cloudinary
delete, and the database DELETE would each return. -/
structure DeleteEnv where
  fetched : Option Catch
  imageDeleteOk : Bool
  dbDeleteOk : Bool
deriving DecidableEq

/-- The externally visible effects of a `deleteCatch` run. -/
structure DeleteEffects where
  imageDeleted : Bool
  recordDeleted : Bool
deriving DecidableEq

/-- Whether `deleteCatch` reaches the Cloudinary delete call: the catch was
fetched, has a truthy `photo_url`, and a public id could be extracted. -/
def imageCleanupAttempted (env : DeleteEnv) : Bool :=
  match env.fetched with
  | none => false
  | some c =>
    if c.photo_url ≠ "" then (extractPublicIdFromUrl c.photo_url).isSome
    else false

/-- `api.ts` `deleteCatch` (with `deleteImages = true` as all callers use):
image cleanup first — every cleanup failure is swallowed — then the database
DELETE; an error is thrown only when the DELETE fails, and nothing done
before it is undone. -/
def deleteCatchRun (env : DeleteEnv) (deleteImages : Bool) :
    DeleteEffects × Option String :=
  let imageDeleted :=
    if deleteImages then imageCleanupAttempted env && env.imageDeleteOk
    else false
  if env.dbDeleteOk then
    ({ imageDeleted := imageDeleted, recordDeleted := true }, none)
  else
    ({ imageDeleted := imageDeleted, recordDeleted := false },
      some "Failed to delete catch")

/-- Oracle: the first attempt at the first URL times out, everything else
succeeds. -/
def ocFirstTimeout (u a : Nat) : Outcome :=
  if u = 0 ∧ a = 1 then Outcome.timeout else Outcome.success

/-- Catch whose photo lives on Cloudinary (public id extractable). -/
def exCloudCatch : Catch :=
  { _id := "c1", user_id := "u1", species := "Bass", weight := 2,
    photo_url :=
      "https://res.cloudinary.com/demo/image/upload/v1723/RodRoyale/catches/abc.jpg",
    location := loc0, shared_with_followers := true,
    created_at := "2025-07-01T00:00:00Z" }

/-- C3, counterexample.  (i) On iOS a timed-out creation request is retried:
one `createCatch` call issues two POST requests (the claim says the creation
request is never retried).  (ii) `deleteCatch` is not atomic: when the image
delete succeeds and the database DELETE then fails, the call errors with the
stored image already removed but the record still present. -/
theorem c3_no_retry_atomic_counterexample :
    createCatchRun true ocFirstTimeout = (2, none)
    ∧ deleteCatchRun
        { fetched := some exCloudCatch, imageDeleteOk := true,
          dbDeleteOk := false } true =
      ({ imageDeleted := true, recordDeleted := false },
        some "Failed to delete catch") := by
  constructor
  · rfl
  · decide

/-- C3, amended.  Off iOS, `createCatch` issues exactly one creation request
whatever the network does (no retry); on iOS timed-out requests are retried
(up to 2 attempts per URL over up to 4 URLs).  `deleteCatch` is not atomic:
it errors exactly when the database DELETE fails, the record is removed
exactly when that DELETE succeeds, and the image-deletion effect is decided
independently of the DELETE's outcome (an image deletion failure is swallowed
and the record is still deleted; a DELETE failure does not restore the
already-deleted image). -/
theorem c3_retry_atomicity_characterization
    (oc : Nat → Nat → Outcome) (env : DeleteEnv) :
    (createCatchRun false oc).1 = 1
    ∧ ((deleteCatchRun env true).2 = none ↔ env.dbDeleteOk = true)
    ∧ (deleteCatchRun env true).1.recordDeleted = env.dbDeleteOk
    ∧ (deleteCatchRun env true).1.imageDeleted =
        (imageCleanupAttempted env && env.imageDeleteOk) := by
  refine ⟨?_, ?_, ?_, ?_⟩
  · show (runUrls oc [1] [0] none).1 = 1
    simp only [runUrls, runAttempts]
    cases oc 0 1 <;> rfl
  · cases h : env.dbDeleteOk <;> simp [deleteCatchRun, h]
  · cases h : env.dbDeleteOk <;> simp [deleteCatchRun, h]
  · cases h : env.dbDeleteOk <;> simp [deleteCatchRun, h]

/-! ## C4 — dangling pin: missing `catch_info` is absent enrichment

`MapComponent.tsx` builds each marker's title/description with optional
chaining and `||` fallbacks; `ProfileScreen.handleMarkerPress` does the same
for the alert fields.  Every access to `catch_info`/`owner_info` is
optional-chained, so a pin whose catch was deleted renders with fallback
labels — the embedding is a family of total functions, no error path
exists. -/

/-- JS `x || fallback` on an optionally-chained string field (`undefined`
and the empty string are falsy). -/
def jsOrString (v : Option String) (fallback : String) : String :=
  match v with
  | some s => if s = "" then fallback else s
  | none => fallback

/-- JS `` `${x || fallback}` `` on an optionally-chained numeric field
(`undefined` and `0` are falsy); `showQ` abstracts JS number printing. -/
def jsOrNum (showQ : ℚ → String) (v : Option ℚ) (fallback : String) : String :=
  match v with
  | some q => if q = 0 then fallback else showQ q
  | none => fallback

/-- `MapComponent` marker `title`. -/
def markerTitle (p : Pin) : String :=
  "🐟 " ++ jsOrString (p.catch_info.map (·.species)) "Fish Catch"

/-- `MapComponent` marker `description`. -/
def markerDescription (showQ : ℚ → String) (p : Pin) : String :=
  "⚖️ " ++ jsOrNum showQ (p.catch_info.map (·.weight)) "Unknown"
    ++ " lbs | 👁️ " ++ visibilityStr p.visibility
    ++ " | 🎣 " ++ jsOrString (p.owner_info.map (·.username)) "Unknown"

/-- `handleMarkerPress`: the `species` const. -/
def alertSpecies (p : Pin) : String :=
  jsOrString (p.catch_info.map (·.species)) "Fish"

/-- `handleMarkerPress`: the `username` const. -/
def alertUsername (p : Pin) : String :=
  jsOrString (p.owner_info.map (·.username)) "Unknown Angler"

/-- `handleMarkerPress`: the `weight` const. -/
def alertWeight (showQ : ℚ → String) (p : Pin) : String :=
  jsOrNum showQ (p.catch_info.map (·.weight)) "Unknown"

/-- `handleMarkerPress`: the `date` const; `fmtDate` abstracts
`new Date(s).toLocaleDateString()`. -/
def alertDate (fmtDate : String → String) (p : Pin) : String :=
  match p.catch_info with
  | some c => if c.created_at = "" then "Unknown Date" else fmtDate c.created_at
  | none => "Unknown Date"

/-- C4, confirmed.  A pin whose referenced catch was deleted (`catch_info`
absent, and for the owner label `owner_info` absent) renders everywhere with
the fallback labels; all the display functions are total, so no error is
raised. -/
theorem c4_dangling_pin_fallbacks (showQ : ℚ → String) (fmtDate : String → String)
    (p : Pin) (hc : p.catch_info = none) (ho : p.owner_info = none) :
    markerTitle p = "🐟 Fish Catch"
    ∧ markerDescription showQ p =
        "⚖️ Unknown lbs | 👁️ " ++ visibilityStr p.visibility ++ " | 🎣 Unknown"
    ∧ alertSpecies p = "Fish"
    ∧ alertUsername p = "Unknown Angler"
    ∧ alertWeight showQ p = "Unknown"
    ∧ alertDate fmtDate p = "Unknown Date" := by
  refine ⟨?_, ?_, ?_, ?_, ?_, ?_⟩ <;>
    simp [markerTitle, markerDescription, alertSpecies, alertUsername,
      alertWeight, alertDate, jsOrString, jsOrNum, hc, ho]
  rw [String.append_assoc]
  rfl

/-- Concrete dangling pin: references catch `"gone"` which no longer exists,
hence no enrichment. -/
def exDanglingPin : Pin :=
  { id := "p1", user_id := "u1", catch_id := "gone", location := loc0,
    visibility := Visibility.publicVis }

/-- C4 witness: the dangling pin renders with all fallback labels. -/
theorem c4_dangling_pin_fallbacks_witness :
    markerTitle exDanglingPin = "🐟 Fish Catch"
    ∧ markerDescription (fun _ => "") exDanglingPin =
        "⚖️ Unknown lbs | 👁️ public | 🎣 Unknown"
    ∧ alertSpecies exDanglingPin = "Fish"
    ∧ alertUsername exDanglingPin = "Unknown Angler"
    ∧ alertWeight (fun _ => "") exDanglingPin = "Unknown"
    ∧ alertDate (fun s => s) exDanglingPin = "Unknown Date" :=
  c4_dangling_pin_fallbacks (fun _ => "") (fun s => s) exDanglingPin rfl rfl

/-! ## C5 / C6 — Leaderboard Ranker

The ranker runs in the backend, whose code is not among the sources; only its
TypeScript declarations (`UserStats`, `LeaderboardUser`,
`LeaderboardResponse`, `LeaderboardMetric`) and its callers are.  The ranking
itself is therefore modelled from the spec (§4.3). -/

/-- `LeaderboardMetric` from the client types. -/
inductive LeaderboardMetric
  | biggest_catch_month
  | catches_this_month
  | best_average_month
deriving DecidableEq

/-- `UserStats` from the client types. -/
structure UserStats where
  total_catches : Nat
  biggest_catch_month : ℚ
  biggest_catch_species : String
  catches_this_month : Nat
  best_average_month : ℚ
deriving DecidableEq

/-- The metric value the ranker sorts by. -/
def metricValue (m : LeaderboardMetric) (s : UserStats) : ℚ :=
  match m with
  | .biggest_catch_month => s.biggest_catch_month
  | .catches_this_month => (s.catches_this_month : ℚ)
  | .best_average_month => s.best_average_month

/-- A cohort member handed to the ranker: user id, username and stats. -/
structure CohortUser where
  _id : String
  username : String
  stats : UserStats
deriving DecidableEq

/-- `LeaderboardUser` from the client types. -/
structure LeaderboardUser where
  _id : String
  username : String
  rank : Nat
  is_current_user : Bool
  total_catches : Nat
  biggest_catch_month : ℚ
  catches_this_month : Nat
  best_average_month : ℚ
deriving DecidableEq

/-- `LeaderboardResponse` from the client types; `current_user_rank` is
nullable (`null/absent` when the viewer is not in the cohort). -/
structure LeaderboardResponse where
  current_user_rank : Option Nat
  total_users : Nat
  leaderboard : List LeaderboardUser
deriving DecidableEq

/-- The metric value carried by a returned leaderboard row. -/
def entryMetric (m : LeaderboardMetric) (e : LeaderboardUser) : ℚ :=
  match m with
  | .biggest_catch_month => e.biggest_catch_month
  | .catches_this_month => (e.catches_this_month : ℚ)
  | .best_average_month => e.best_average_month

/-- Modelled from the spec: one output row of the Leaderboard Ranker — the
user's id, name and metric values, the assigned rank, and the
`is_current_user` mark. -/
def mkEntry (viewer : String) (r : Nat) (u : CohortUser) : LeaderboardUser :=
  { _id := u._id, username := u.username, rank := r,
    is_current_user := u._id == viewer,
    total_catches := u.stats.total_catches,
    biggest_catch_month := u.stats.biggest_catch_month,
    catches_this_month := u.stats.catches_this_month,
    best_average_month := u.stats.best_average_month }

/-- Modelled from the spec: "Rank assignment: sequential integers starting
at 1 over the sorted list; no rank sharing for ties". -/
def assignRanks (viewer : String) : Nat → List CohortUser → List LeaderboardUser
  | _, [] => []
  | r, u :: us => mkEntry viewer r u :: assignRanks viewer (r + 1) us

/-- Modelled from the spec: the Leaderboard Ranker (backend code absent from
the sources).  "Sort: descending by the chosen metric value.  Ties: preserve
relative input order (stable sort)"; "Output: full sorted list plus
`current_user_rank` (the viewer's rank number if present in cohort, else
null/absent) and `total_users` (cohort size)". -/
def rankLeaderboard (cohort : List CohortUser) (metric : LeaderboardMetric)
    (viewer : String) : LeaderboardResponse :=
  let sorted := sortDescBy (fun u => metricValue metric u.stats) cohort
  let entries := assignRanks viewer 1 sorted
  { current_user_rank :=
      (entries.find? (fun e => e._id == viewer)).map (·.rank),
    total_users := cohort.length,
    leaderboard := entries }

theorem entryMetric_mkEntry (m : LeaderboardMetric) (v : String) (r : Nat)
    (u : CohortUser) : entryMetric m (mkEntry v r u) = metricValue m u.stats := by
  cases m <;> rfl

theorem assignRanks_map_rank (v : String) : ∀ (r : Nat) (l : List CohortUser),
    (assignRanks v r l).map (·.rank) = List.range' r l.length
  | _, [] => rfl
  | r, u :: us => by
    simp [assignRanks, mkEntry, List.range', assignRanks_map_rank v (r + 1) us]

theorem assignRanks_map_id (v : String) : ∀ (r : Nat) (l : List CohortUser),
    (assignRanks v r l).map (·._id) = l.map (·._id)
  | _, [] => rfl
  | r, u :: us => by
    simp [assignRanks, mkEntry, assignRanks_map_id v (r + 1) us]

theorem assignRanks_filter_map_id (v : String) (m : LeaderboardMetric) (k : ℚ) :
    ∀ (r : Nat) (l : List CohortUser),
      ((assignRanks v r l).filter (fun e => decide (entryMetric m e = k))).map
          (·._id)
        = (l.filter (fun u => decide (metricValue m u.stats = k))).map (·._id)
  | _, [] => rfl
  | r, u :: us => by
    simp only [assignRanks, List.filter_cons, entryMetric_mkEntry]
    by_cases hk : metricValue m u.stats = k
    · simp [hk, mkEntry, assignRanks_filter_map_id v m k (r + 1) us]
    · simp [hk, assignRanks_filter_map_id v m k (r + 1) us]

/-- C5, confirmed.  The returned ranks are exactly the contiguous sequence
`1..N` (so no duplicates, no gaps) with `N = total_users = cohort size`, and
rows with equal metric values keep their relative input order: for every
metric value `k`, the ids of the rows carrying `k` equal, in order, the ids
of the cohort members whose stats evaluate to `k`. -/
theorem c5_leaderboard_ranks_contiguous_stable (cohort : List CohortUser)
    (metric : LeaderboardMetric) (viewer : String) :
    ((rankLeaderboard cohort metric viewer).leaderboard.map (·.rank)
        = List.range' 1 (rankLeaderboard cohort metric viewer).total_users)
    ∧ (rankLeaderboard cohort metric viewer).total_users = cohort.length
    ∧ ∀ k : ℚ,
        (((rankLeaderboard cohort metric viewer).leaderboard.filter
              (fun e => decide (entryMetric metric e = k))).map (·._id))
          = ((cohort.filter
              (fun u => decide (metricValue metric u.stats = k))).map (·._id)) := by
  refine ⟨?_, rfl, ?_⟩
  · show (assignRanks viewer 1
        (sortDescBy (fun u => metricValue metric u.stats) cohort)).map (·.rank)
      = List.range' 1 cohort.length
    rw [assignRanks_map_rank]
    rw [(sortDescBy_perm (fun u => metricValue metric u.stats) cohort).length_eq]
  · intro k
    show ((assignRanks viewer 1
          (sortDescBy (fun u => metricValue metric u.stats) cohort)).filter
            (fun e => decide (entryMetric metric e = k))).map (·._id)
        = _
    rw [assignRanks_filter_map_id]
    rw [sortDescBy_filter_key]

/-- C6, confirmed.  `current_user_rank` is non-null exactly when the viewer's
id occurs in the ranked cohort. -/
theorem option_map_isSome {α β : Type} (f : α → β) (o : Option α) :
    (o.map f).isSome = o.isSome := by
  cases o <;> rfl

theorem c6_current_user_rank_iff_present (cohort : List CohortUser)
    (metric : LeaderboardMetric) (viewer : String) :
    (rankLeaderboard cohort metric viewer).current_user_rank ≠ none
      ↔ viewer ∈ cohort.map (·._id) := by
  have hids := assignRanks_map_id viewer 1
    (sortDescBy (fun u => metricValue metric u.stats) cohort)
  have hperm :=
    (sortDescBy_perm (fun u => metricValue metric u.stats) cohort).map
      (fun u => u._id)
  show ((assignRanks viewer 1
      (sortDescBy (fun u => metricValue metric u.stats) cohort)).find?
        (fun e => e._id == viewer)).map (·.rank) ≠ none ↔ _
  rw [Option.ne_none_iff_isSome, option_map_isSome, List.find?_isSome]
  constructor
  · rintro ⟨e, he, hbe⟩
    have heq : e._id = viewer := by simpa using hbe
    have hmem : e._id ∈ (assignRanks viewer 1
        (sortDescBy (fun u => metricValue metric u.stats) cohort)).map (·._id) :=
      List.mem_map_of_mem _ he
    rw [hids, heq] at hmem
    exact hperm.mem_iff.mp hmem
  · intro hv
    have hv2 := hperm.mem_iff.mpr hv
    rw [← hids] at hv2
    obtain ⟨e, he, heq⟩ := List.mem_map.mp hv2
    exact ⟨e, he, by simpa using heq⟩

/-! ## C7 — feed request bounds (`getFeed`)

`api.ts` `getFeed(limit?, skip?)` builds `params` with
`if (limit) params.limit = limit; if (skip) params.skip = skip;` — the
values are forwarded *unchanged* (`0`/`undefined` being falsy are omitted).
The clamping the spec describes lives in the backend Feed Composer, whose
code is absent from the sources, so it is modelled from the spec. -/

/-- The query parameters of the `GET /catches/feed` request `getFeed`
issues. -/
structure FeedRequestParams where
  limit : Option Int
  skip : Option Int
deriving DecidableEq

/-- `api.ts` `getFeed`: JS truthiness — a `0` or absent argument is omitted
from the query; any other value is forwarded untouched. -/
def getFeedParams (limit skip : Option Int) : FeedRequestParams :=
  { limit :=
      match limit with
      | some l => if l ≠ 0 then some l else none
      | none => none,
    skip :=
      match skip with
      | some s => if s ≠ 0 then some s else none
      | none => none }

/-- Modelled from the spec: the backend Feed Composer's bounds handling
(backend code absent from the sources) — "`limit` clamped to `[1, 100]`;
default `20`". -/
def effectiveLimit (p : FeedRequestParams) : Int :=
  match p.limit with
  | none => 20
  | some l => max 1 (min 100 l)

/-- Modelled from the spec: "`skip >= 0`, default `0`". -/
def effectiveSkip (p : FeedRequestParams) : Int :=
  match p.skip with
  | none => 0
  | some s => max 0 s

/-- C7, counterexample.  The client does not clamp: `getFeed(500)` issues a
feed request whose `limit` parameter is `500`, outside `[1, 100]` — so "no
feed request is made with a limit outside [1, 100]" is false of the cited
code. -/
theorem c7_feed_limit_counterexample :
    (getFeedParams (some 500) none).limit = some 500
    ∧ ¬ ((1 : Int) ≤ 500 ∧ (500 : Int) ≤ 100) := by
  exact ⟨rfl, by decide⟩

/-- C7, amended.  `getFeed` forwards `limit`/`skip` unchanged (omitting them
when absent or `0`), so a client request can carry a limit outside
`[1, 100]`; the *effective* values applied by the (spec-modelled) backend are
clamped: limit always in `[1, 100]` with default `20` when not supplied, skip
non-negative with default `0`. -/
theorem c7_feed_bounds_effective (limit skip : Option Int) :
    (1 ≤ effectiveLimit (getFeedParams limit skip)
      ∧ effectiveLimit (getFeedParams limit skip) ≤ 100)
    ∧ effectiveLimit (getFeedParams none skip) = 20
    ∧ 0 ≤ effectiveSkip (getFeedParams limit skip)
    ∧ effectiveSkip (getFeedParams limit none) = 0 := by
  refine ⟨?_, rfl, ?_, rfl⟩
  · cases limit with
    | none => simp [getFeedParams, effectiveLimit]
    | some l =>
      by_cases hl : l ≠ 0 <;>
        simp [getFeedParams, effectiveLimit, hl]
  · cases skip with
    | none => simp [getFeedParams, effectiveSkip]
    | some s =>
      by_cases hs : s ≠ 0 <;>
        simp [getFeedParams, effectiveSkip, hs]

/-! ## C8 — species leaderboard is case-insensitive in the client -/

/-- The request `getSpeciesLeaderboard` issues: the species is lowercased
into the path (`/leaderboard/species/${species.toLowerCase()}`), metric and
limit ride along as query params. -/
structure SpeciesLeaderboardRequest where
  path : String
  metric : LeaderboardMetric
  limit : Int
deriving DecidableEq

/-- JS `String.prototype.toLowerCase`, modelled per character (species
strings are ASCII; `Char.toLower` lowercases exactly the ASCII range). -/
def jsToLowerCase (s : String) : String :=
  String.mk (s.toList.map Char.toLower)

/-- `api.ts` `getSpeciesLeaderboard` (request construction; `limit` defaults
to 50 at the call site). -/
def getSpeciesLeaderboardRequest (species : String) (metric : LeaderboardMetric)
    (limit : Int) : SpeciesLeaderboardRequest :=
  { path := "/leaderboard/species/" ++ jsToLowerCase species,
    metric := metric, limit := limit }

/-- C8, confirmed.  Two species arguments that agree up to letter case (same
lowercasing) produce the identical request, hence the identical result from
any backend (the response is a function of the request). -/
theorem c8_species_case_insensitive (s t : String) (metric : LeaderboardMetric)
    (limit : Int) (backend : SpeciesLeaderboardRequest → LeaderboardResponse)
    (h : jsToLowerCase s = jsToLowerCase t) :
    getSpeciesLeaderboardRequest s metric limit
      = getSpeciesLeaderboardRequest t metric limit
    ∧ backend (getSpeciesLeaderboardRequest s metric limit)
      = backend (getSpeciesLeaderboardRequest t metric limit) := by
  have : getSpeciesLeaderboardRequest s metric limit
      = getSpeciesLeaderboardRequest t metric limit := by
    simp [getSpeciesLeaderboardRequest, h]
  exact ⟨this, by rw [this]⟩

/-- A concrete backend used by the C8 witness. -/
def exBackend (_ : SpeciesLeaderboardRequest) : LeaderboardResponse :=
  { current_user_rank := none, total_users := 0, leaderboard := [] }

/-- C8 witness: `"BASS"` and `"bass"` yield the same request. -/
theorem c8_species_case_insensitive_witness :
    getSpeciesLeaderboardRequest "BASS" LeaderboardMetric.biggest_catch_month 50
      = getSpeciesLeaderboardRequest "bass" LeaderboardMetric.biggest_catch_month 50
    ∧ exBackend
        (getSpeciesLeaderboardRequest "BASS" LeaderboardMetric.biggest_catch_month 50)
      = exBackend
        (getSpeciesLeaderboardRequest "bass" LeaderboardMetric.biggest_catch_month 50) :=
  c8_species_case_insensitive "BASS" "bass" LeaderboardMetric.biggest_catch_month 50
    exBackend (by decide)

/-! ## C9 — `getEnrichedFeed` is a frame over `getFeed` -/

/-- `api.ts` `getEnrichedFeed`: each feed catch is spread unchanged into the
result and, when the owner lookup succeeds, a `user` field is added; a failed
`getUser` is caught and the bare catch returned.  `fetchUser` abstracts
`getUser` (`none` = the lookup threw). -/
def enrichCatch (fetchUser : String → Option User) (c : Catch) :
    Catch × Option User :=
  match fetchUser c.user_id with
  | some u => (c, some u)
  | none => (c, none)

/-- `api.ts` `getEnrichedFeed` over an already-fetched feed. -/
def getEnrichedFeed (fetchUser : String → Option User) (feed : List Catch) :
    List (Catch × Option User) :=
  feed.map (enrichCatch fetchUser)

theorem enrichCatch_fst (fetchUser : String → Option User) (c : Catch) :
    (enrichCatch fetchUser c) = (c, fetchUser c.user_id) := by
  unfold enrichCatch
  cases fetchUser c.user_id <;> rfl

/-- C9, confirmed.  The enriched feed has the same length and order as the
underlying feed, each element keeps its catch unchanged (projecting away the
added `user` field recovers the feed exactly), and the `i`-th element's
`user` is the owner lookup's result — `none` (field absent) when that single
lookup failed, without failing the whole call (the function is total). -/
theorem c9_enriched_feed_frame (fetchUser : String → Option User)
    (feed : List Catch) :
    (getEnrichedFeed fetchUser feed).map Prod.fst = feed
    ∧ (getEnrichedFeed fetchUser feed).length = feed.length
    ∧ ∀ i : Nat,
        (getEnrichedFeed fetchUser feed)[i]?
          = (feed[i]?).map (fun c => (c, fetchUser c.user_id)) := by
  refine ⟨?_, by simp [getEnrichedFeed], ?_⟩
  · simp only [getEnrichedFeed, List.map_map]
    have : (Prod.fst ∘ enrichCatch fetchUser) = id := by
      funext c
      simp [enrichCatch_fst]
    rw [this, List.map_id]
  · intro i
    simp only [getEnrichedFeed, List.getElem?_map]
    cases feed[i]? with
    | none => rfl
    | some c => simp [enrichCatch_fst]

/-! ## C10 — `loadPins` validation (`ProfileScreen`) -/

/-- A JS value sitting where a coordinate should be: a finite number, `NaN`,
or something that is not a number at all (`undefined`, a string, …).  The
source checks `typeof x !== 'number' || isNaN(x)`. -/
inductive JsNum
  | nan
  | notNumber
  | num (q : ℚ)
deriving DecidableEq

/-- A fetched pin's `location` before validation. -/
structure RawLocation where
  lat : JsNum
  lng : JsNum
deriving DecidableEq

/-- A pin as fetched from the API, before `loadPins` validates it: `id` and
`location` may be missing (and the falsy check `!pin.id` also drops an empty
id string). -/
structure RawPin where
  id : Option String
  location : Option RawLocation
deriving DecidableEq

/-- `ProfileScreen.loadPins`'s validation predicate, mirroring its sequence
of early `return false`s. -/
def isValidPin (p : RawPin) : Bool :=
  match p.id with
  | none => false
  | some s =>
    if s = "" then false
    else
      match p.location with
      | none => false
      | some loc =>
        match loc.lat with
        | JsNum.num la =>
          match loc.lng with
          | JsNum.num lo => decide (|la| ≤ 90) && decide (|lo| ≤ 180)
          | _ => false
        | _ => false

/-- `loadPins`: `const validPins = mapPins.filter(...)`; the filtered list is
what `setPins` stores — invalid pins are dropped, no error is raised (the
function is total). -/
def validPins (mapPins : List RawPin) : List RawPin :=
  mapPins.filter isValidPin

/-- C10, confirmed.  Membership in the accepted pin state is exactly "came
from the fetched list and passes every check"; an accepted pin has a
non-empty id, a location, and finite non-NaN coordinates with `|lat| ≤ 90`
and `|lng| ≤ 180`; a fetched pin failing any check is silently absent from
the accepted set. -/
theorem c10_loadPins_validation (ps : List RawPin) (p : RawPin) :
    (p ∈ validPins ps ↔ p ∈ ps ∧ isValidPin p = true)
    ∧ (p ∈ validPins ps →
        (∃ s, p.id = some s ∧ s ≠ "")
        ∧ (∃ loc, p.location = some loc
            ∧ ∃ la lo : ℚ, loc.lat = JsNum.num la ∧ loc.lng = JsNum.num lo
              ∧ |la| ≤ 90 ∧ |lo| ≤ 180)) := by
  have hmem : p ∈ validPins ps ↔ p ∈ ps ∧ isValidPin p = true :=
    List.mem_filter
  refine ⟨hmem, ?_⟩
  intro hp
  have hvalid : isValidPin p = true := (hmem.mp hp).2
  obtain ⟨ido, loco⟩ := p
  rcases ido with _ | s
  · simp [isValidPin] at hvalid
  · rcases loco with _ | ⟨la0, lo0⟩
    · simp [isValidPin] at hvalid
    · rcases la0 with _ | _ | la
      · simp [isValidPin] at hvalid
      · simp [isValidPin] at hvalid
      · rcases lo0 with _ | _ | lo
        · simp [isValidPin] at hvalid
        · simp [isValidPin] at hvalid
        · by_cases hs : s = ""
          · simp [isValidPin, hs] at hvalid
          · simp only [isValidPin, if_neg hs, Bool.and_eq_true,
              decide_eq_true_eq] at hvalid
            exact ⟨⟨s, rfl, hs⟩, ⟨JsNum.num la, JsNum.num lo⟩, rfl, la, lo,
              rfl, rfl, hvalid.1, hvalid.2⟩

/-- A valid concrete fetched pin. -/
def exGoodPin : RawPin :=
  { id := some "p1",
    location := some ⟨JsNum.num 45, JsNum.num (-93)⟩ }

/-- An invalid concrete fetched pin: latitude is `NaN`. -/
def exBadPin : RawPin :=
  { id := some "p2", location := some ⟨JsNum.nan, JsNum.num 0⟩ }

/-- C10 witness: of a fetched pair, the valid pin is accepted with all the
claimed properties and the NaN-latitude pin is silently dropped. -/
theorem c10_loadPins_validation_witness :
    ((∃ s, exGoodPin.id = some s ∧ s ≠ "")
      ∧ (∃ loc, exGoodPin.location = some loc
          ∧ ∃ la lo : ℚ, loc.lat = JsNum.num la ∧ loc.lng = JsNum.num lo
            ∧ |la| ≤ 90 ∧ |lo| ≤ 180))
    ∧ exBadPin ∉ validPins [exGoodPin, exBadPin] := by
  constructor
  · exact (c10_loadPins_validation [exGoodPin, exBadPin] exGoodPin).2 (by decide)
  · intro hmem
    have := ((c10_loadPins_validation [exGoodPin, exBadPin] exBadPin).1.mp hmem).2
    exact absurd this (by decide)

end RodRoyale
